import Mathlib

/-!
Verification of the Netflix content analysis dashboard core
(`Netflix_Dashboard.py`): data loading with calendar derivation, the
module-level row filter, and the aggregation queries feeding the charts.

The pandas data frame is embedded as a list of rows.  Missing values
(NaN / NaT) are embedded as `none`.  Monetary-style formatted numbers are
rationals; calendar dates are integer day numbers (days since 1970-01-01)
together with the year/month/day fields needed for the derived columns.
-/

namespace Netflix

/-- Fixed season presentation order, SEASON_ORDER in the source. -/
def SEASON_ORDER : List String := ["Winter", "Spring", "Summer", "Fall"]

/-- Fixed weekday presentation order, WEEKDAY_ORDER in the source. -/
def WEEKDAY_ORDER : List String :=
  ["Monday", "Tuesday", "Wednesday", "Thursday", "Friday", "Saturday", "Sunday"]

/-- Fixed month presentation order, MONTH_ORDER in the source. -/
def MONTH_ORDER : List String :=
  ["Jan", "Feb", "Mar", "Apr", "May", "Jun", "Jul", "Aug", "Sep", "Oct", "Nov", "Dec"]

/-- Full English month names, as produced by the pandas month-name accessor. -/
def MONTH_FULL : List String :=
  ["January", "February", "March", "April", "May", "June",
   "July", "August", "September", "October", "November", "December"]

/-- get_season from the source.  The source applies it to the Release Month
column, whose entries are floats with NaN for a missing month; a NaN month
fails every membership test and falls through to the final return of
"Fall".  The month is therefore embedded as `Option Nat`, with `none` for
NaN, and `none` is not a member of any of the three lists. -/
def get_season (month : Option Nat) : String :=
  if month ∈ [some 12, some 1, some 2] then "Winter"
  else if month ∈ [some 3, some 4, some 5] then "Spring"
  else if month ∈ [some 6, some 7, some 8] then "Summer"
  else "Fall"

/-- A calendar date year/month/day. -/
structure YMD where
  year : Nat
  month : Nat
  day : Nat
deriving DecidableEq

/-- Gregorian leap-year test. -/
def isLeap (y : Nat) : Bool := (y % 4 == 0 && y % 100 != 0) || y % 400 == 0

/-- Number of days in a month of a given year. -/
def daysInMonth (y m : Nat) : Nat :=
  if m = 2 then (if isLeap y then 29 else 28)
  else if m ∈ [4, 6, 9, 11] then 30
  else 31

/-- Splitting a character list at every occurrence of a separator. -/
def splitOnChar (sep : Char) : List Char → List (List Char)
  | [] => [[]]
  | c :: rest =>
    if c = sep then [] :: splitOnChar sep rest
    else
      match splitOnChar sep rest with
      | [] => [[c]]
      | g :: gs => (c :: g) :: gs

/-- Parsing of a nonempty all-digit character list as a natural number. -/
def digitsToNat? (cs : List Char) : Option Nat :=
  if cs.isEmpty then none
  else
    cs.foldl
      (fun acc c =>
        acc.bind (fun n => if c.isDigit then some (n * 10 + (c.toNat - 48)) else none))
      (some 0)

/-- Date parsing, pd.to_datetime with errors="coerce", modelled for ISO
"YYYY-MM-DD" strings: a string not of that shape, or not a valid calendar
date, parses to `none` rather than raising. -/
def parseDate (s : String) : Option YMD :=
  match splitOnChar '-' s.data with
  | [ys, ms, ds] =>
    match digitsToNat? ys, digitsToNat? ms, digitsToNat? ds with
    | some y, some m, some d =>
      if 1 ≤ m ∧ m ≤ 12 ∧ 1 ≤ d ∧ d ≤ daysInMonth y m then some ⟨y, m, d⟩ else none
    | _, _, _ => none
  | _ => none

/-- Days since 1970-01-01 of a civil calendar date; the integer timestamp
underlying the Release Date column (Hinnant days-from-civil algorithm). -/
def daysFromCivil (date : YMD) : Int :=
  let y : Int := if date.month ≤ 2 then (date.year : Int) - 1 else (date.year : Int)
  let era : Int := (if 0 ≤ y then y else y - 399) / 400
  let yoe : Int := y - era * 400
  let mp : Int := ((date.month : Int) + 9) % 12
  let doy : Int := (153 * mp + 2) / 5 + (date.day : Int) - 1
  let doe : Int := yoe * 365 + yoe / 4 - yoe / 100 + doy
  era * 146097 + doe - 719468

/-- English weekday name of an integer day number; day 0 (1970-01-01) was a
Thursday, and the weekday list starts with Monday. -/
def weekdayName (days : Int) : String :=
  WEEKDAY_ORDER.getD ((days + 3) % 7).toNat ""

/-- Full English month name truncated to three letters, the
month_name().str[:3] step of the loader. -/
def shortMonthName (m : Nat) : String :=
  (MONTH_FULL.getD (m - 1) "").take 3

/-- pd.Categorical with a fixed category list: a value outside the category
list becomes missing. -/
def categorical (cats : List String) (v : Option String) : Option String :=
  v.bind (fun s => if s ∈ cats then some s else none)

/-- Removal of thousands separators: replace(",", "", regex=True). -/
def stripCommas (s : String) : String :=
  String.mk (s.data.filter (fun c => c ≠ ','))

/-- Parsing of a nonnegative decimal literal, float(s) restricted to the
numeric strings occurring in the Hours Viewed column: digits with at most
one decimal point.  Returns `none` when parsing fails. -/
def parseFloat (s : String) : Option ℚ :=
  match splitOnChar '.' s.data with
  | [w] => (digitsToNat? w).map (fun n => (n : ℚ))
  | [w, f] =>
    if w.isEmpty && f.isEmpty then none
    else
      match (if w.isEmpty then some 0 else digitsToNat? w),
            (if f.isEmpty then some 0 else digitsToNat? f) with
      | some wn, some fn => some ((wn : ℚ) + (fn : ℚ) / (10 : ℚ) ^ f.length)
      | _, _ => none
  | _ => none

/-- Coercion of one raw Hours Viewed cell, one entry of the
replace-then-astype(float) step: a missing cell (NaN) stays missing, a
textual cell has its commas stripped and is parsed, and a cell that still
fails to parse raises, which astype propagates as an error. -/
def coerceCell (c : Option String) : Except String (Option ℚ) :=
  match c with
  | none => .ok none
  | some s =>
    match parseFloat (stripCommas s) with
    | some q => .ok (some q)
    | none => .error ("could not convert string to float: " ++ s)

/-- Coercion of the whole Hours Viewed column; the first failing cell makes
the whole astype call, and hence the whole load, fail. -/
def coerceHours : List (Option String) → Except String (List (Option ℚ))
  | [] => .ok []
  | c :: cs =>
    match coerceCell c with
    | .error e => .error e
    | .ok v =>
      match coerceHours cs with
      | .error e => .error e
      | .ok vs => .ok (v :: vs)

/-- One raw CSV row, before cleaning.  Missing cells are `none`. -/
structure RawRow where
  title : String
  contentType : Option String
  languageIndicator : Option String
  hoursViewed : Option String
  releaseDate : Option String
deriving DecidableEq

/-- One row of the normalized table produced by load_data. -/
structure Row where
  title : String
  contentType : Option String
  languageIndicator : Option String
  hoursViewed : Option ℚ
  releaseDate : Option Int
  releaseMonth : Option Nat
  releaseMonthName : Option String
  releaseDay : Option String
  releaseSeason : Option String
deriving DecidableEq

/-- Cleaning of one row: date parsing with coercion to `none` on failure,
the four derived calendar columns, and the three categorical casts. -/
def mkRow (r : RawRow) (h : Option ℚ) : Row :=
  let ymd : Option YMD := r.releaseDate.bind parseDate
  let days : Option Int := ymd.map daysFromCivil
  let month : Option Nat := ymd.map YMD.month
  { title := r.title
    contentType := r.contentType
    languageIndicator := r.languageIndicator
    hoursViewed := h
    releaseDate := days
    releaseMonth := month
    releaseMonthName := categorical MONTH_ORDER (month.map shortMonthName)
    releaseDay := categorical WEEKDAY_ORDER (days.map weekdayName)
    releaseSeason := categorical SEASON_ORDER (some (get_season month)) }

/-- load_data from the source: coerce the Hours Viewed column (an error
there aborts the load), then clean every row. -/
def load_data (rows : List RawRow) : Except String (List Row) :=
  match coerceHours (rows.map RawRow.hoursViewed) with
  | .error e => .error e
  | .ok hs => .ok ((rows.zip hs).map (fun p => mkRow p.1 p.2))

/-- Series.isin on a possibly missing cell: a missing value is never a
member of the selection list. -/
def isin (v : Option String) (l : List String) : Bool :=
  match v with
  | some s => l.contains s
  | none => false

/-- Comparison of the Release Date column with the range start; a NaT
entry compares false. -/
def cmpGE (x : Option Int) (s : Int) : Bool :=
  match x with
  | some d => decide (s ≤ d)
  | none => false

/-- Comparison of the Release Date column with the range end; a NaT entry
compares false. -/
def cmpLE (x : Option Int) (e : Int) : Bool :=
  match x with
  | some d => decide (d ≤ e)
  | none => false

/-- The module-level filter mask: the date-range conjunction, then the
content-type isin test only when the selection is nonempty, then the
language isin test only when the selection is nonempty. -/
def mask (s e : Int) (types langs : List String) (r : Row) : Bool :=
  let m := cmpGE r.releaseDate s && cmpLE r.releaseDate e
  let m := if types.isEmpty then m else m && isin r.contentType types
  let m := if langs.isEmpty then m else m && isin r.languageIndicator langs
  m

/-- The filtered view fdf = df[mask].copy(). -/
def fdf (df : List Row) (s e : Int) (types langs : List String) : List Row :=
  df.filter (mask s e types langs)

/-- Hours of a row with NaN counted as zero; pandas sums skip NaN. -/
def hoursOrZero (r : Row) : ℚ := r.hoursViewed.getD 0

/-- Sort key for nlargest on an index/row pair: larger hours first, and on
equal hours the smaller original index first (keep="first"). -/
def nlargestLE (p q : Nat × Row) : Bool :=
  decide (hoursOrZero q.2 < hoursOrZero p.2) ||
    (decide (hoursOrZero p.2 = hoursOrZero q.2) && decide (p.1 ≤ q.1))

/-- First step of df.nlargest(k, "Hours Viewed") on index/row pairs: rows
with a missing value in the sort column are dropped. -/
def validIdx (df : List Row) : List (Nat × Row) :=
  (df.enum).filter (fun p => p.2.hoursViewed.isSome)

/-- Second step of nlargest: sort by descending hours, ties kept in
original order (keep="first"). -/
def sortedIdx (df : List Row) : List (Nat × Row) :=
  (validIdx df).mergeSort nlargestLE

/-- df.nlargest(k, "Hours Viewed") on index/row pairs: the first k entries
of the descending stable sort of the non-null rows. -/
def nlargestIdx (df : List Row) (k : Nat) : List (Nat × Row) :=
  (sortedIdx df).take k

/-- plot_top_titles: the rows selected by df.nlargest(k, "Hours Viewed"). -/
def plot_top_titles (df : List Row) (k : Nat) : List Row :=
  (nlargestIdx df k).map Prod.snd

/-- The holiday mask of one row: any reference date within the window; a
NaT release date yields NaN differences, which compare false. -/
def holidayMatch (window : Nat) (dates : List Int) (x : Option Int) : Bool :=
  dates.any (fun d =>
    match x with
    | some xd => decide ((xd - d).natAbs ≤ window)
    | none => false)

/-- sort_values("Release Date") comparison; missing dates sort last. -/
def releaseDateLE (a b : Row) : Bool :=
  match a.releaseDate, b.releaseDate with
  | some x, some y => decide (x ≤ y)
  | some _, none => true
  | none, some _ => false
  | none, none => true

/-- holiday_analysis table output: the rows released within the window of
some reference date, sorted ascending by release date. -/
def holiday_analysis (df : List Row) (dates : List Int) (window : Nat) : List Row :=
  (df.filter (fun r => holidayMatch window dates r.releaseDate)).mergeSort releaseDateLE

/-- Sum of Hours Viewed over the rows of one content-type group; pandas
group sums skip NaN entries. -/
def groupSum (df : List Row) (c : String) : ℚ :=
  ((df.filter (fun r => decide (r.contentType = some c))).map hoursOrZero).sum

/-- The distinct non-null content-type keys: groupby drops rows whose key
is NaN.  Key order is irrelevant to the totals considered here. -/
def contentTypeKeys (df : List Row) : List String :=
  (df.filterMap Row.contentType).dedup

/-- plot_viewership_by_content_type aggregation:
df.groupby("Content Type")["Hours Viewed"].sum(), one entry per distinct
non-null content type. -/
def byContentType (df : List Row) : List (String × ℚ) :=
  (contentTypeKeys df).map (fun c => (c, groupSum df c))

/-- Grand total of the byContentType aggregation. -/
def byContentTypeTotal (df : List Row) : ℚ :=
  ((byContentType df).map Prod.snd).sum

/-- The KPI summary structure produced by kpi_block. -/
structure KPI where
  totalHours : ℚ
  titleCount : Nat
  avgHours : ℚ
  pctByContentType : List (String × ℚ)
deriving DecidableEq

/-- value_counts(normalize=True) * 100 over the Content Type column: one
percentage per distinct non-null value.  Presentation order of the entries
is irrelevant to the claims considered here. -/
def valueCountsPct (df : List Row) : List (String × ℚ) :=
  let vals := df.filterMap Row.contentType
  vals.dedup.map (fun c => (c, 100 * ((vals.count c : ℚ) / (vals.length : ℚ))))

/-- kpi_block from the source: total hours (NaN skipped), row count, the
guarded average total_hours / n_titles if n_titles else 0, and the
percentage share per content type. -/
def kpi_block (df : List Row) : KPI :=
  { totalHours := (df.map hoursOrZero).sum
    titleCount := df.length
    avgHours := if df.length ≠ 0 then (df.map hoursOrZero).sum / (df.length : ℚ) else 0
    pctByContentType := valueCountsPct df }

/-- Stated from the spec, for comparison with the source aggregation: the
sum of hoursViewed over all rows whose hoursViewed is non-null. -/
def specTotalNonNullHours (df : List Row) : ℚ :=
  ((df.filter (fun r => r.hoursViewed.isSome)).map hoursOrZero).sum

/-- Stated from the spec, for comparison with get_season: the fixed season
mapping months 12,1,2 to Winter, 3,4,5 to Spring, 6,7,8 to Summer and
9,10,11 to Fall. -/
def specSeason (m : Nat) : String :=
  if m = 12 ∨ m = 1 ∨ m = 2 then "Winter"
  else if m = 3 ∨ m = 4 ∨ m = 5 then "Spring"
  else if m = 6 ∨ m = 7 ∨ m = 8 then "Summer"
  else "Fall"

/-- Raw row whose release date does not parse; the failing input of C1. -/
def rawUnparseableDate : RawRow :=
  ⟨"Some Title", some "Movie", some "English", some "5", some "not-a-date"⟩

/-- Row with a missing content type but five million viewed hours. -/
def rowNullType : Row :=
  ⟨"Untyped", none, some "English", some 5, some 0, some 1, some "Jan", some "Thursday",
    some "Winter"⟩

/-- Row with a missing Hours Viewed value. -/
def rowNullHours : Row :=
  ⟨"No Hours", some "Movie", some "English", none, some 0, some 1, some "Jan", some "Thursday",
    some "Winter"⟩

/-- Row with five million viewed hours. -/
def rowFive : Row :=
  ⟨"Five", some "Movie", some "English", some 5, some 0, some 1, some "Jan", some "Thursday",
    some "Winter"⟩

/-- Row with three million viewed hours. -/
def rowThree : Row :=
  ⟨"Three", some "Show", some "English", some 3, some 0, some 1, some "Jan", some "Thursday",
    some "Winter"⟩

/-- Row released 2023-12-27, day number 19718. -/
def row27 : Row :=
  ⟨"Holiday A", some "Movie", some "English", some 2, some 19718, some 12, some "Dec",
    some "Wednesday", some "Winter"⟩

/-- Row released 2023-12-29, day number 19720. -/
def row29 : Row :=
  ⟨"Holiday B", some "Movie", some "English", some 1, some 19720, some 12, some "Dec",
    some "Friday", some "Winter"⟩

/-- Hours Viewed column with one cell that does not parse as a number. -/
def badHoursColumn : List (Option String) := [some "1,234.5", some "abc"]

/-- Raw row of the loading scenario: Hours Viewed "1,234.5" and Release
Date "2023-07-04". -/
def rawScenario : RawRow :=
  ⟨"The Title", some "Movie", some "English", some "1,234.5", some "2023-07-04"⟩

/-- C1: the code violates the claim that a null or unparseable release
date yields null in all four derived fields.  Three of them are indeed
null, but releaseSeason comes out as "Fall": get_season applied to the
missing month fails every membership test and falls through to its final
branch, so the loader tags a dateless row with a definite season.  The
spec describes the intended short-circuit behaviour; the code is the
slip. -/
theorem load_data_unparseable_date_season_Fall :
    (load_data [rawUnparseableDate]).map
        (List.map (fun r => (r.releaseMonth, r.releaseMonthName, r.releaseDay, r.releaseSeason)))
      = .ok [(none, none, none, some "Fall")] := rfl

/-- C2 counterexample: a Hours Viewed cell that still fails to parse after
separator stripping does not become null with the row retained; the
astype(float) step raises, so the whole load fails with an error. -/
theorem coerceHours_bad_cell_error :
    coerceHours badHoursColumn = .error "could not convert string to float: abc" := rfl

/-- Helper: value of a successful single-cell coercion. -/
theorem coerceCell_ok_value (c : Option String) (v : Option ℚ)
    (h : coerceCell c = .ok v) :
    v = c.bind (fun s => parseFloat (stripCommas s)) := by
  cases c with
  | none =>
    simp only [coerceCell] at h
    cases h
    rfl
  | some s =>
    cases hp : parseFloat (stripCommas s) with
    | none => rw [coerceCell, hp] at h; cases h
    | some q => rw [coerceCell, hp] at h; cases h; simp [hp]

/-- Helper: a single-cell coercion succeeds exactly when a present cell
parses after comma stripping. -/
theorem coerceCell_isOk (c : Option String) :
    (coerceCell c).isOk
      = c.elim true (fun s => (parseFloat (stripCommas s)).isSome) := by
  cases c with
  | none => rfl
  | some s =>
    rw [coerceCell]
    cases hp : parseFloat (stripCommas s) <;> simp [hp, Except.isOk, Except.toBool, Option.elim]

/-- Helper: column coercion succeeds exactly when every present cell
parses after comma stripping. -/
theorem coerceHours_isOk (cells : List (Option String)) :
    (coerceHours cells).isOk
      = cells.all (fun c => c.elim true (fun s => (parseFloat (stripCommas s)).isSome)) := by
  induction cells with
  | nil => rfl
  | cons c cs ih =>
    rw [List.all_cons, ← ih, ← coerceCell_isOk]
    cases hc : coerceCell c with
    | error e => simp [coerceHours, hc, Except.isOk, Except.toBool]
    | ok v =>
      cases hcs : coerceHours cs with
      | error e => simp [coerceHours, hc, hcs, Except.isOk, Except.toBool]
      | ok vs => simp [coerceHours, hc, hcs, Except.isOk, Except.toBool]

/-- C2 (amended): during load, textual Hours Viewed values have separator
characters stripped and are parsed as floating-point numbers; the load
succeeds exactly when every present cell parses, in which case every cell
holds its parsed value, and a cell that still fails to parse aborts the
whole load with an error instead of becoming null in a retained row. -/
theorem coerceHours_spec (cells : List (Option String)) :
    ((coerceHours cells).isOk = true ↔
        ∀ s, some s ∈ cells → (parseFloat (stripCommas s)).isSome = true) ∧
      ∀ vs, coerceHours cells = .ok vs →
        vs = cells.map (fun c => c.bind (fun s => parseFloat (stripCommas s))) := by
  constructor
  · rw [coerceHours_isOk, List.all_eq_true]
    constructor
    · intro hall s hs
      simpa using hall (some s) hs
    · intro hall c hc
      cases c with
      | none => rfl
      | some s => simpa using hall s hc
  · induction cells with
    | nil =>
      intro vs h
      simp only [coerceHours] at h
      cases h
      rfl
    | cons c cs ih =>
      intro vs h
      rw [coerceHours] at h
      cases hc : coerceCell c with
      | error e => rw [hc] at h; cases h
      | ok v =>
        rw [hc] at h
        cases hcs : coerceHours cs with
        | error e => rw [hcs] at h; cases h
        | ok ws =>
          rw [hcs] at h
          cases h
          rw [List.map_cons, ← coerceCell_ok_value c v hc, ← ih ws hcs]

/-- C2 witness: a concrete column where every cell parses, with its parsed
values, obtained through the amended theorem. -/
theorem coerceHours_spec_witness :
    coerceHours [some "1,234.5", none] = .ok [some (1234.5 : ℚ), none] ∧
      [some (1234.5 : ℚ), none]
        = [some "1,234.5", none].map
            (fun c => c.bind (fun s => parseFloat (stripCommas s))) := by
  have hok : coerceHours [some "1,234.5", none]
      = .ok [some ((1234 : ℚ) + (5 : ℚ) / (10 : ℚ) ^ 1), none] := rfl
  have hval : ((1234 : ℚ) + (5 : ℚ) / (10 : ℚ) ^ 1) = (1234.5 : ℚ) := by norm_num
  have h2 := (coerceHours_spec [some "1,234.5", none]).2
      [some (1234.5 : ℚ), none] (by rw [hok, hval])
  exact ⟨by rw [hok, hval], h2⟩

/-- Helper: the date-range conjunction of the mask holds exactly on a
non-null date inside the inclusive range. -/
theorem dateRange_iff (x : Option Int) (s e : Int) :
    (cmpGE x s && cmpLE x e) = true ↔ ∃ d, x = some d ∧ s ≤ d ∧ d ≤ e := by
  cases x <;> simp [cmpGE, cmpLE, and_assoc]

/-- Helper: isin holds exactly on a non-null member of the list. -/
theorem isin_iff (v : Option String) (l : List String) :
    isin v l = true ↔ ∃ c, v = some c ∧ c ∈ l := by
  cases v <;> simp [isin]

/-- Helper: the full filter mask, as the conjunction the spec states. -/
theorem mask_iff (s e : Int) (types langs : List String) (r : Row) :
    mask s e types langs r = true ↔
      (∃ d, r.releaseDate = some d ∧ s ≤ d ∧ d ≤ e) ∧
      (types = [] ∨ ∃ c, r.contentType = some c ∧ c ∈ types) ∧
      (langs = [] ∨ ∃ v, r.languageIndicator = some v ∧ v ∈ langs) := by
  unfold mask
  rcases hrd : r.releaseDate with _ | d <;>
    rcases types with _ | ⟨t, ts⟩ <;> rcases langs with _ | ⟨lg, ls⟩ <;>
      simp [cmpGE, cmpLE, isin_iff, hrd, and_assoc]

/-- C3: a row is in the filtered view iff it is in the table, its release
date is non-null and inside the inclusive range, the content-type
selection is empty or contains its content type, and the language
selection is empty or contains its language; an empty selection imposes no
filter and rows with a null release date are always excluded. -/
theorem fdf_mem_iff (df : List Row) (s e : Int) (types langs : List String) (r : Row) :
    r ∈ fdf df s e types langs ↔
      r ∈ df ∧
      (∃ d, r.releaseDate = some d ∧ s ≤ d ∧ d ≤ e) ∧
      (types = [] ∨ ∃ c, r.contentType = some c ∧ c ∈ types) ∧
      (langs = [] ∨ ∃ v, r.languageIndicator = some v ∧ v ∈ langs) := by
  rw [fdf, List.mem_filter, mask_iff]

/-- C9: filtering is pure: the filtered view is an order-preserving
subsequence of the source table (so the source rows and their relative
order are untouched), and filtering the view again with the same criteria
returns it unchanged; being a function of the table and the criteria, the
output is the same on every recomputation. -/
theorem fdf_pure (df : List Row) (s e : Int) (types langs : List String) :
    (fdf df s e types langs).Sublist df ∧
      fdf (fdf df s e types langs) s e types langs = fdf df s e types langs :=
  ⟨List.filter_sublist df, List.filter_eq_self.mpr (fun _ ha => List.of_mem_filter ha)⟩

/-- C8: the KPI block of an empty view is all zeroes with an empty
content-type share and no error; the average is zero whenever the title
count is zero, so the division branch never divides by zero, and on a
nonempty view the average is total hours over title count. -/
theorem kpi_block_spec (df : List Row) :
    kpi_block [] = ⟨0, 0, 0, []⟩ ∧
      ((kpi_block df).titleCount = 0 → (kpi_block df).avgHours = 0) ∧
      ((kpi_block df).titleCount ≠ 0 →
        (kpi_block df).avgHours
          = (kpi_block df).totalHours / ((kpi_block df).titleCount : ℚ)) := by
  refine ⟨rfl, ?_, ?_⟩ <;> intro h <;> simp [kpi_block] at h ⊢ <;> simp [h]

/-- C8 witness: the guarded average at the empty view and at a concrete
one-row view. -/
theorem kpi_block_spec_witness :
    kpi_block [] = ⟨0, 0, 0, []⟩ ∧
      (kpi_block [rowFive]).avgHours
        = (kpi_block [rowFive]).totalHours / ((kpi_block [rowFive]).titleCount : ℚ) :=
  ⟨(kpi_block_spec [rowFive]).1, (kpi_block_spec [rowFive]).2.2 (by decide)⟩

end Netflix

namespace Netflix

/-- C6 counterexample: on a table whose single row has five million hours
but a null content type, groupby drops the row from every group, so the
grand total of the byContentType sums is 0 while the sum of hoursViewed
over the rows with non-null hoursViewed is 5. -/
theorem byContentType_total_counterexample :
    byContentTypeTotal [rowNullType] = 0 ∧ specTotalNonNullHours [rowNullType] = 5 := by
  constructor <;>
    norm_num [byContentTypeTotal, byContentType, contentTypeKeys, groupSum,
      specTotalNonNullHours, hoursOrZero, rowNullType]

/-- Helper: sums over a key list distribute over pointwise addition. -/
theorem sum_map_add_distrib (f g : String → ℚ) :
    ∀ ks : List String, (ks.map (fun c => f c + g c)).sum = (ks.map f).sum + (ks.map g).sum
  | [] => by simp
  | k :: ks => by
    simp only [List.map_cons, List.sum_cons, sum_map_add_distrib f g ks]
    ring

/-- Helper: a one-point summand vanishes over a key list avoiding the point. -/
theorem sum_map_ite_of_not_mem (x : ℚ) (k : String) :
    ∀ ks : List String, k ∉ ks → (ks.map (fun c => if k = c then x else 0)).sum = 0
  | [], _ => rfl
  | c :: ks, h => by
    have hne : k ≠ c := fun hkc => h (hkc ▸ List.mem_cons_self c ks)
    have hnm : k ∉ ks := fun hm => h (List.mem_cons_of_mem c hm)
    simp [hne, sum_map_ite_of_not_mem x k ks hnm]

/-- Helper: a one-point summand over a duplicate-free key list containing
the point sums to its value. -/
theorem sum_map_ite_of_mem (x : ℚ) (k : String) :
    ∀ ks : List String, ks.Nodup → k ∈ ks →
      (ks.map (fun c => if k = c then x else 0)).sum = x
  | [], _, h => absurd h (List.not_mem_nil k)
  | c :: ks, hnd, h => by
    rcases List.mem_cons.mp h with rfl | hm
    · have hnm : k ∉ ks := (List.nodup_cons.mp hnd).1
      simp [sum_map_ite_of_not_mem x k ks hnm]
    · have hne : k ≠ c := fun hkc => (List.nodup_cons.mp hnd).1 (hkc ▸ hm)
      simp [hne, sum_map_ite_of_mem x k ks (List.nodup_cons.mp hnd).2 hm]

/-- Helper: prepending a row adds its hours to exactly its own group. -/
theorem groupSum_cons (r : Row) (df : List Row) (c : String) :
    groupSum (r :: df) c
      = (if r.contentType = some c then hoursOrZero r else 0) + groupSum df c := by
  by_cases h : r.contentType = some c <;> simp [groupSum, List.filter_cons, h]

/-- Helper: a sum of zeroes over a key list is zero. -/
theorem sum_map_zero (ks : List String) : (ks.map (fun _ => (0 : ℚ))).sum = 0 := by
  induction ks with
  | nil => rfl
  | cons k ks ih => simp [ih]

/-- Helper: over any duplicate-free key list covering every non-null
content type of the table, the group sums add up to the hours of the rows
with a non-null content type. -/
theorem sum_groupSum_eq (ks : List String) (hnd : ks.Nodup) :
    ∀ df : List Row, (∀ r ∈ df, ∀ c, r.contentType = some c → c ∈ ks) →
      (ks.map (groupSum df)).sum
        = ((df.filter (fun r => r.contentType.isSome)).map hoursOrZero).sum
  | [], _ => by
    have hz : ks.map (groupSum []) = ks.map (fun _ => (0 : ℚ)) :=
      List.map_congr_left (fun c _ => by simp [groupSum])
    simp [hz, sum_map_zero]
  | r :: df, hall => by
    have ihyp := sum_groupSum_eq ks hnd df
      (fun r2 hr2 c hc => hall r2 (List.mem_cons_of_mem r hr2) c hc)
    have hmapeq : ks.map (groupSum (r :: df))
        = ks.map (fun c => (if r.contentType = some c then hoursOrZero r else 0) + groupSum df c) :=
      List.map_congr_left (fun c _ => groupSum_cons r df c)
    rw [hmapeq, sum_map_add_distrib, ihyp]
    cases hct : r.contentType with
    | none =>
      have hz : (ks.map (fun c => if (none : Option String) = some c then hoursOrZero r else 0))
          = ks.map (fun _ => (0 : ℚ)) :=
        List.map_congr_left (fun c _ => by simp)
      simp [hz, sum_map_zero, List.filter_cons, hct]
    | some k =>
      have hk : k ∈ ks := hall r (List.mem_cons_self r df) k hct
      have hone : (ks.map (fun c => if some k = some c then hoursOrZero r else 0)).sum
          = hoursOrZero r := by
        rw [show (fun c => if some k = some c then hoursOrZero r else 0)
            = (fun c => if k = c then hoursOrZero r else 0) by
          funext c; simp]
        exact sum_map_ite_of_mem (hoursOrZero r) k ks hnd hk
      rw [hone]
      simp [List.filter_cons, hct]

/-- C6 (amended): the grand total of the byContentType group sums equals
the sum of hoursViewed over the rows whose content type is non-null (a
null hoursViewed counts as zero there, as pandas sums skip it); rows with
a null content type are dropped by groupby and are missing from the
total. -/
theorem byContentType_total_partition (df : List Row) :
    byContentTypeTotal df
      = ((df.filter (fun r => r.contentType.isSome)).map hoursOrZero).sum := by
  have hnd : (contentTypeKeys df).Nodup := List.nodup_dedup _
  have hall : ∀ r ∈ df, ∀ c, r.contentType = some c → c ∈ contentTypeKeys df := by
    intro r hr c hc
    exact List.mem_dedup.mpr (List.mem_filterMap.mpr ⟨r, hr, hc⟩)
  have h := sum_groupSum_eq (contentTypeKeys df) hnd df hall
  rw [byContentTypeTotal, byContentType, ← h, List.map_map]
  rfl

end Netflix

namespace Netflix

/-- Helper: the release-date comparison is transitive. -/
theorem releaseDateLE_trans (a b c : Row) :
    releaseDateLE a b → releaseDateLE b c → releaseDateLE a c := by
  unfold releaseDateLE
  cases ha : a.releaseDate <;> cases hb : b.releaseDate <;> cases hc : c.releaseDate <;>
    (simp; try omega)

/-- Helper: the release-date comparison is total. -/
theorem releaseDateLE_total (a b : Row) :
    releaseDateLE a b || releaseDateLE b a := by
  unfold releaseDateLE
  cases ha : a.releaseDate <;> cases hb : b.releaseDate <;> (simp; try omega)

/-- C4: a row is in the holiday window output iff it is in the view and
its release date is non-null and at most windowDays days away from at
least one reference date, and the output is ordered ascending by release
date. -/
theorem holiday_analysis_spec (df : List Row) (dates : List Int) (window : Nat) :
    (∀ r, r ∈ holiday_analysis df dates window ↔
        r ∈ df ∧ ∃ x, r.releaseDate = some x ∧ ∃ d ∈ dates, (x - d).natAbs ≤ window) ∧
      (holiday_analysis df dates window).Pairwise
        (fun a b => ∀ x y, a.releaseDate = some x → b.releaseDate = some y → x ≤ y) := by
  constructor
  · intro r
    rw [holiday_analysis, List.mem_mergeSort, List.mem_filter]
    cases hrd : r.releaseDate with
    | none => simp [holidayMatch, hrd]
    | some x =>
      simp only [holidayMatch, List.any_eq_true, hrd, decide_eq_true_eq, and_congr_right_iff]
      intro
      constructor
      · rintro ⟨d, hd, hw⟩
        exact ⟨x, rfl, d, hd, hw⟩
      · rintro ⟨x2, hx2, d, hd, hw⟩
        cases hx2
        exact ⟨d, hd, hw⟩
  · have hs := List.sorted_mergeSort
      (fun a b c => releaseDateLE_trans a b c) (fun a b => releaseDateLE_total a b)
      (df.filter (fun r => holidayMatch window dates r.releaseDate))
    refine List.Pairwise.imp ?_ hs
    intro a b hab x y hx hy
    rw [releaseDateLE, hx, hy] at hab
    simpa using hab

/-- C4 witness: with the single reference date 2023-12-25 (day 19716) and
a three-day window, the row released 2023-12-27 (day 19718, difference 2)
is selected and the row released 2023-12-29 (day 19720, difference 4) is
not. -/
theorem holiday_analysis_spec_witness :
    row27 ∈ holiday_analysis [row27, row29] [19716] 3 ∧
      row29 ∉ holiday_analysis [row27, row29] [19716] 3 := by
  have h := (holiday_analysis_spec [row27, row29] [19716] 3).1
  constructor
  · exact (h row27).mpr
      ⟨List.mem_cons_self row27 [row29], 19718, rfl, 19716, List.mem_singleton.mpr rfl,
        by norm_num⟩
  · intro hm
    obtain ⟨-, x, hx, d, hd, hw⟩ := (h row29).mp hm
    have hx2 : x = 19720 := by simpa [row29] using hx.symm
    have hd2 : d = 19716 := List.mem_singleton.mp hd
    rw [hx2, hd2] at hw
    norm_num at hw

end Netflix

namespace Netflix

/-- Helper: a parsed date has a month between 1 and 12. -/
theorem parseDate_month_bounds (s : String) (d : YMD) (h : parseDate s = some d) :
    1 ≤ d.month ∧ d.month ≤ 12 := by
  unfold parseDate at h
  repeat' split at h
  any_goals exact Option.noConfusion h
  rename_i hcond
  cases h
  exact ⟨hcond.1, hcond.2.1⟩

/-- Helper: get_season agrees with the season mapping the spec states on
every valid month number. -/
theorem get_season_eq_specSeason (m : Nat) (h1 : 1 ≤ m) (h2 : m ≤ 12) :
    get_season (some m) = specSeason m := by
  interval_cases m <;> rfl

/-- Helper: the truncated month name of a valid month is one of the fixed
ordered month categories. -/
theorem shortMonthName_mem (m : Nat) (h1 : 1 ≤ m) (h2 : m ≤ 12) :
    shortMonthName m ∈ MONTH_ORDER := by
  interval_cases m <;> decide

/-- Helper: the weekday name of any day number is one of the fixed ordered
weekday categories. -/
theorem weekdayName_mem (days : Int) : weekdayName days ∈ WEEKDAY_ORDER := by
  unfold weekdayName
  have h0 : 0 ≤ (days + 3) % 7 := Int.emod_nonneg _ (by norm_num)
  have h7 : (days + 3) % 7 < 7 := Int.emod_lt_of_pos _ (by norm_num)
  have hk : ((days + 3) % 7).toNat < 7 := by omega
  set k := ((days + 3) % 7).toNat with hkdef
  interval_cases k <;> decide

/-- Helper: the season returned by get_season is one of the four fixed
ordered season categories. -/
theorem get_season_mem (month : Option Nat) : get_season month ∈ SEASON_ORDER := by
  unfold get_season SEASON_ORDER
  split
  · simp
  · split
    · simp
    · split <;> simp

/-- Helper: the categorical cast keeps any value inside the category list. -/
theorem categorical_of_mem (cats : List String) (s : String) (h : s ∈ cats) :
    categorical cats (some s) = some s := by
  simp [categorical, h]

/-- C7: for a row whose release date parses, the loader keeps the parsed
hours, sets the month number, sets the month name to the first three
letters of the full English month name, sets the weekday to the English
weekday name of the date's day number, and sets the season by the fixed
month-to-season mapping of the spec. -/
theorem mkRow_derived_fields (r : RawRow) (h : Option ℚ) (d : YMD)
    (hd : r.releaseDate.bind parseDate = some d) :
    (mkRow r h).hoursViewed = h ∧
      (mkRow r h).releaseMonth = some d.month ∧
      (mkRow r h).releaseMonthName = some ((MONTH_FULL.getD (d.month - 1) "").take 3) ∧
      (mkRow r h).releaseDay = some (weekdayName (daysFromCivil d)) ∧
      (mkRow r h).releaseSeason = some (specSeason d.month) := by
  obtain ⟨s, hs, hp⟩ := Option.bind_eq_some.mp hd
  obtain ⟨h1, h2⟩ := parseDate_month_bounds s d hp
  refine ⟨rfl, ?_, ?_, ?_, ?_⟩
  · simp [mkRow, hd]
  · rw [show (MONTH_FULL.getD (d.month - 1) "").take 3 = shortMonthName d.month from rfl]
    simp only [mkRow, hd, Option.map_some']
    exact categorical_of_mem MONTH_ORDER _ (shortMonthName_mem d.month h1 h2)
  · simp only [mkRow, hd, Option.map_some']
    exact categorical_of_mem WEEKDAY_ORDER _ (weekdayName_mem (daysFromCivil d))
  · simp only [mkRow, hd, Option.map_some']
    rw [← get_season_eq_specSeason d.month h1 h2]
    exact categorical_of_mem SEASON_ORDER _ (get_season_mem (some d.month))

/-- C7 witness: the scenario row with Hours Viewed "1,234.5" and Release
Date "2023-07-04" loads to 1234.5 hours, season Summer, weekday Tuesday
and month name "Jul". -/
theorem mkRow_derived_fields_witness :
    coerceCell (some "1,234.5") = .ok (some (1234.5 : ℚ)) ∧
      (mkRow rawScenario (some (1234.5 : ℚ))).hoursViewed = some (1234.5 : ℚ) ∧
      (mkRow rawScenario (some (1234.5 : ℚ))).releaseSeason = some "Summer" ∧
      (mkRow rawScenario (some (1234.5 : ℚ))).releaseDay = some "Tuesday" ∧
      (mkRow rawScenario (some (1234.5 : ℚ))).releaseMonthName = some "Jul" := by
  have hcell : coerceCell (some "1,234.5")
      = .ok (some ((1234 : ℚ) + (5 : ℚ) / (10 : ℚ) ^ 1)) := rfl
  have hval : ((1234 : ℚ) + (5 : ℚ) / (10 : ℚ) ^ 1) = (1234.5 : ℚ) := by norm_num
  have hfields := mkRow_derived_fields rawScenario (some (1234.5 : ℚ)) ⟨2023, 7, 4⟩ rfl
  obtain ⟨hh, -, hmn, hwd, hse⟩ := hfields
  refine ⟨by rw [hcell, hval], hh, ?_, ?_, ?_⟩
  · rw [hse]
    rfl
  · rw [hwd]
    rfl
  · rw [hmn]
    rfl

end Netflix

namespace Netflix

/-- Helper: dropping the indices of the filtered enumeration gives the
filtered list, when the predicate only looks at the element. -/
theorem map_snd_filter_enumFrom (pr : Row → Bool) :
    ∀ (n : Nat) (l : List Row),
      ((l.enumFrom n).filter (fun p => pr p.2)).map Prod.snd = l.filter pr
  | _, [] => rfl
  | n, r :: l => by
    by_cases h : pr r <;>
      simp [List.enumFrom_cons, List.filter_cons, h, map_snd_filter_enumFrom pr (n + 1) l]

/-- Helper: the valid rows of nlargest are the rows with non-null hours. -/
theorem map_snd_validIdx (df : List Row) :
    (validIdx df).map Prod.snd = df.filter (fun r => r.hoursViewed.isSome) :=
  map_snd_filter_enumFrom (fun r => r.hoursViewed.isSome) 0 df

/-- Helper: indices in an enumeration from n are at least n. -/
theorem mem_enumFrom_fst_le :
    ∀ (n : Nat) (l : List Row) (p : Nat × Row), p ∈ l.enumFrom n → n ≤ p.1
  | _, [], p, hp => absurd hp (List.not_mem_nil p)
  | n, _ :: l, p, hp => by
    rcases List.mem_cons.mp hp with rfl | hm
    · exact Nat.le_refl n
    · exact Nat.le_trans (Nat.le_succ n) (mem_enumFrom_fst_le (n + 1) l p hm)

/-- Helper: the indices of an enumeration are strictly increasing. -/
theorem enumFrom_pairwise_fst_lt :
    ∀ (n : Nat) (l : List Row), (l.enumFrom n).Pairwise (fun p q => p.1 < q.1)
  | _, [] => List.Pairwise.nil
  | n, r :: l => by
    rw [List.enumFrom_cons]
    exact List.Pairwise.cons
      (fun q hq => Nat.lt_of_lt_of_le (Nat.lt_succ_self n) (mem_enumFrom_fst_le (n + 1) l q hq))
      (enumFrom_pairwise_fst_lt (n + 1) l)

/-- Helper: the nlargest comparison is transitive. -/
theorem nlargestLE_trans (p q r : Nat × Row) :
    nlargestLE p q → nlargestLE q r → nlargestLE p r := by
  simp only [nlargestLE, Bool.or_eq_true, Bool.and_eq_true, decide_eq_true_eq]
  rintro (h1 | ⟨h1, h1i⟩) (h2 | ⟨h2, h2i⟩)
  · exact Or.inl (lt_trans h2 h1)
  · exact Or.inl (lt_of_eq_of_lt h2.symm h1)
  · exact Or.inl (lt_of_lt_of_eq h2 h1.symm)
  · exact Or.inr ⟨h1.trans h2, Nat.le_trans h1i h2i⟩

/-- Helper: the nlargest comparison is total. -/
theorem nlargestLE_total (p q : Nat × Row) :
    nlargestLE p q || nlargestLE q p := by
  simp only [nlargestLE, Bool.or_eq_true, Bool.and_eq_true, decide_eq_true_eq]
  rcases lt_trichotomy (hoursOrZero p.2) (hoursOrZero q.2) with h | h | h
  · exact Or.inr (Or.inl h)
  · rcases Nat.le_total p.1 q.1 with hi | hi
    · exact Or.inl (Or.inr ⟨h, hi⟩)
    · exact Or.inr (Or.inr ⟨h.symm, hi⟩)
  · exact Or.inl (Or.inl h)

/-- Helper: the stable sort permutes the valid rows. -/
theorem sortedIdx_perm (df : List Row) : List.Perm (sortedIdx df) (validIdx df) :=
  List.mergeSort_perm (validIdx df) nlargestLE

/-- Helper: the stable sort is sorted for the nlargest comparison. -/
theorem sortedIdx_pairwise (df : List Row) :
    (sortedIdx df).Pairwise (fun p q => nlargestLE p q = true) :=
  List.sorted_mergeSort (fun a b c => nlargestLE_trans a b c)
    (fun a b => nlargestLE_total a b) (validIdx df)

/-- Helper: the sorted valid rows carry pairwise distinct original indices. -/
theorem sortedIdx_fst_ne (df : List Row) :
    (sortedIdx df).Pairwise (fun p q => p.1 ≠ q.1) := by
  have hv : (validIdx df).Pairwise (fun p q => p.1 < q.1) :=
    List.Pairwise.sublist (List.filter_sublist df.enum) (enumFrom_pairwise_fst_lt 0 df)
  have hne : (validIdx df).Pairwise (fun p q : Nat × Row => p.1 ≠ q.1) :=
    hv.imp (fun h => Nat.ne_of_lt h)
  exact ((sortedIdx_perm df).pairwise_iff (fun h => Ne.symm h)).mpr hne

/-- C5 (amended): plot_top_titles returns exactly min(k, number of rows
with non-null hoursViewed) rows in descending hoursViewed order, ties
broken by original row order (stable selection), and every selected row
has hoursViewed at least that of every non-selected row with non-null
hoursViewed; rows with null hoursViewed do not enter the selection. -/
theorem nlargest_spec (df : List Row) (k : Nat) :
    (plot_top_titles df k).length
        = min k ((df.filter (fun r => r.hoursViewed.isSome)).length) ∧
      (plot_top_titles df k).Pairwise (fun a b => hoursOrZero b ≤ hoursOrZero a) ∧
      (nlargestIdx df k).Pairwise
        (fun p q => hoursOrZero p.2 = hoursOrZero q.2 → p.1 < q.1) ∧
      ∀ r ∈ df, r.hoursViewed.isSome = true → r ∉ plot_top_titles df k →
        ∀ p ∈ plot_top_titles df k, hoursOrZero r ≤ hoursOrZero p := by
  have hlenv : (validIdx df).length = (df.filter (fun r => r.hoursViewed.isSome)).length := by
    have h := congrArg List.length (map_snd_validIdx df)
    simpa using h
  have htake : (nlargestIdx df k).Pairwise (fun p q => nlargestLE p q = true) :=
    List.Pairwise.sublist (List.take_sublist k (sortedIdx df)) (sortedIdx_pairwise df)
  refine ⟨?_, ?_, ?_, ?_⟩
  · rw [plot_top_titles, List.length_map, nlargestIdx, List.length_take, sortedIdx,
      List.length_mergeSort, hlenv]
  · rw [plot_top_titles, List.pairwise_map]
    refine htake.imp ?_
    intro p q hpq
    simp only [nlargestLE, Bool.or_eq_true, Bool.and_eq_true, decide_eq_true_eq] at hpq
    rcases hpq with h | ⟨h, -⟩
    · exact le_of_lt h
    · exact le_of_eq h.symm
  · have hne : (nlargestIdx df k).Pairwise (fun p q => p.1 ≠ q.1) :=
      List.Pairwise.sublist (List.take_sublist k (sortedIdx df)) (sortedIdx_fst_ne df)
    refine (htake.and hne).imp ?_
    rintro p q ⟨hle, hnefst⟩ heq
    simp only [nlargestLE, Bool.or_eq_true, Bool.and_eq_true, decide_eq_true_eq] at hle
    rcases hle with h | ⟨-, h⟩
    · exact absurd h (by rw [heq]; exact lt_irrefl _)
    · exact Nat.lt_of_le_of_ne h hnefst
  · intro r hr hsome hnot p hp
    have hrf : r ∈ df.filter (fun r => r.hoursViewed.isSome) :=
      List.mem_filter.mpr ⟨hr, hsome⟩
    have hrs : r ∈ (sortedIdx df).map Prod.snd :=
      (((sortedIdx_perm df).map Prod.snd).mem_iff).mpr ((map_snd_validIdx df).symm ▸ hrf)
    have hsplit : sortedIdx df = nlargestIdx df k ++ (sortedIdx df).drop k :=
      (List.take_append_drop k (sortedIdx df)).symm
    have hrd : r ∈ ((sortedIdx df).drop k).map Prod.snd := by
      rw [hsplit, List.map_append] at hrs
      rcases List.mem_append.mp hrs with h | h
      · exact absurd h hnot
      · exact h
    obtain ⟨q, hq, hq2⟩ := List.mem_map.mp hrd
    obtain ⟨p2, hp2, hp22⟩ := List.mem_map.mp hp
    have hpw := (List.pairwise_append.mp (hsplit ▸ sortedIdx_pairwise df)).2.2
    have hle := hpw p2 hp2 q hq
    simp only [nlargestLE, Bool.or_eq_true, Bool.and_eq_true, decide_eq_true_eq] at hle
    rw [← hq2, ← hp22]
    rcases hle with h | ⟨h, -⟩
    · exact le_of_lt h
    · exact le_of_eq h.symm

end Netflix

namespace Netflix

/-- C5 counterexample: on a one-row view whose hoursViewed is null,
nlargest returns no rows although min(k, rowCount) = min(1, 1) = 1:
nlargest silently drops rows with a null sort key, so the claimed count
min(k, rowCount) fails when nulls are present. -/
theorem nlargest_count_counterexample :
    (plot_top_titles [rowNullHours] 1).length = 0 ∧ min 1 [rowNullHours].length = 1 := by
  constructor
  · have hval : validIdx [rowNullHours] = [] := rfl
    rw [plot_top_titles, nlargestIdx, sortedIdx, hval, List.mergeSort_nil]
    rfl
  · rfl

/-- C5 witness: on a concrete two-row view, the theorem certifies the
selected top row has at least the hours of the non-selected row. -/
theorem nlargest_spec_witness :
    hoursOrZero rowThree ≤ hoursOrZero rowFive := by
  have hval : validIdx [rowFive, rowThree] = [(0, rowFive), (1, rowThree)] := rfl
  have hle : nlargestLE (0, rowFive) (1, rowThree) = true := by
    norm_num [nlargestLE, hoursOrZero, rowFive, rowThree]
  have hsort : sortedIdx [rowFive, rowThree] = validIdx [rowFive, rowThree] :=
    List.mergeSort_of_sorted (by rw [hval]; simp [List.pairwise_cons, hle])
  have hout : plot_top_titles [rowFive, rowThree] 1 = [rowFive] := by
    rw [plot_top_titles, nlargestIdx, hsort, hval]
    rfl
  exact (nlargest_spec [rowFive, rowThree] 1).2.2.2 rowThree
    (by simp) rfl
    (by rw [hout]; simp [rowFive, rowThree])
    rowFive (by rw [hout]; simp)

/-- C10: every row returned by plot_top_titles has non-null hoursViewed;
rows with a null hoursViewed are silently excluded from the selection, for
every view and every k. -/
theorem plot_top_titles_nonnull (df : List Row) (k : Nat) :
    ∀ r ∈ plot_top_titles df k, r.hoursViewed.isSome = true := by
  intro r hr
  obtain ⟨p, hp, rfl⟩ := List.mem_map.mp hr
  have hp2 : p ∈ sortedIdx df := List.mem_of_mem_take hp
  have hp3 : p ∈ validIdx df := ((sortedIdx_perm df).mem_iff).mp hp2
  exact (List.mem_filter.mp
    (show p ∈ (df.enum).filter (fun p => p.2.hoursViewed.isSome) from hp3)).2

/-- C10 witness: on a view with a null-hours row first and k larger than
the number of non-null rows, the returned row is the valid one and the
theorem certifies its hours are non-null. -/
theorem plot_top_titles_nonnull_witness :
    rowFive.hoursViewed.isSome = true :=
  plot_top_titles_nonnull [rowNullHours, rowFive] 2 rowFive (by
    have hval : validIdx [rowNullHours, rowFive] = [(1, rowFive)] := rfl
    have hsort : sortedIdx [rowNullHours, rowFive] = [(1, rowFive)] := by
      rw [sortedIdx, hval, List.mergeSort_singleton]
    rw [plot_top_titles, nlargestIdx, hsort]
    simp)

end Netflix
